import Mathlib

/-!
# dex-feed: the token manager (`token/manager.go`)

A shallow embedding of `tokenManager.add`, `tokenManager.get` and
`tokenManager.GetToken`, and the properties of the resolve-with-cache-fallback
protocol proved over it.

The collaborators that live outside `manager.go` are taken as parameters:

* `common.Address.String`, `Token.Encode`, `Decode` and `erc20.NewErc20Caller`
  are the fields of `Env`;
* the `db.Cacher` behind `tokenManager.cache` is a `Cacher σ`: two arbitrary
  transitions on a backend state `σ`;
* the caller returned by `erc20.NewErc20Caller` is an `Erc20Caller`, whose two
  methods answer from the call options (the context).

The mutable world outside the manager (the backend state, and a ghost trace of
the calls made on the collaborators) is a `World σ` passed through explicitly.
-/

namespace DexFeed

/-! ## Data model -/

/-- Byte slices, the `[]byte` of Go. -/
abbrev Bytes := List (Fin 256)

/-- The `common.Address` of go-ethereum: 20 bytes, read as a number below `2 ^ 160`. -/
abbrev Address := Fin (2 ^ 160)

/-- The zero value of `common.Address` (twenty zero bytes). -/
def Address.zero : Address := ⟨0, by decide⟩

/-- Go `error` values that can reach the manager. The two package variables of
`manager.go` are their own constructors (Go compares them by identity), `foreign`
is an error made by a collaborator, `wrap` is what `fmt.Errorf` builds with `%w`:
the whole message and the wrapped cause. -/
inductive Error where
  | errNoExist
  | errNotConnected
  | foreign (text : String)
  | wrap (text : String) (cause : Error)
  deriving DecidableEq, Repr

/-- The package variable `ErrNoExist`. -/
def ErrNoExist : Error := Error.errNoExist

/-- The package variable `ErrNotConnected`. -/
def ErrNotConnected : Error := Error.errNotConnected

/-- The `Error()` method: the message of an error. -/
def Error.message : Error → String
  | .errNoExist => "token doesn\x27t exist"
  | .errNotConnected => "not connected to a chain, use Connect method"
  | .foreign text => text
  | .wrap text _ => text

/-- The `Unwrap()` method as `errors.Unwrap` sees it: the cause of a `%w` error. -/
def Error.Unwrap : Error → Option Error
  | .wrap _ cause => some cause
  | _ => none

/-- The call `fmt.Errorf(format, err)` for a format that is the text `lead`
followed by `%w`: the message is `lead` followed by the message of `err`, and
the result unwraps to `err`. -/
def Errorf (lead : String) (err : Error) : Error :=
  Error.wrap (lead ++ err.message) err

/-- The `Token` struct, with the three fields `GetToken` fills in.
`Decimals` is an `int64`; the only value ever stored by the manager is a
widened `uint8`, so no wrap-around arises. -/
structure Token where
  Address : Address
  Symbol : String
  Decimals : Int
  deriving DecidableEq, Repr

/-- The zero value `Token{}`. -/
def Token.zero : Token := { Address := Address.zero, Symbol := "", Decimals := 0 }

/-- The `bind.CallOpts` built by `GetToken`: only its `Context` field is set. -/
structure CallOpts (Ctx : Type) where
  Context : Ctx

/-- The `erc20.Erc20Caller` bound to one address: its two read-only calls.
`Decimals` answers a `uint8`. -/
structure Erc20Caller (Ctx : Type) where
  Symbol : CallOpts Ctx → Except Error String
  Decimals : CallOpts Ctx → Except Error (Fin 256)

/-- The `db.Cacher` interface as `manager.go` uses it. `Get` answers the bytes
and the presence flag and may change the backend state (recency bookkeeping);
`Put` is an arbitrary transition (whatever it may return is discarded by `add`). -/
structure Cacher (σ : Type) where
  Get : σ → String → (Bytes × Bool) × σ
  Put : σ → String → Bytes → σ

/-- The functions `manager.go` calls that are defined elsewhere. -/
structure Env (Client Ctx : Type) where
  /-- The method `common.Address.String`. -/
  addressString : Address → String
  /-- The method `Token.Encode`: the bytes and the error, both returned. -/
  Encode : Token → Bytes × Option Error
  /-- The function `Decode`. -/
  Decode : Bytes → Except Error Token
  /-- The function `erc20.NewErc20Caller`. -/
  NewErc20Caller : Address → Client → Except Error (Erc20Caller Ctx)

/-- One call made on a collaborator. -/
inductive Event where
  | cacheGet (key : String)
  | cachePut (key : String) (value : Bytes)
  | newCaller (address : Address)
  | symbol (address : Address)
  | decimals (address : Address)
  deriving DecidableEq, Repr

/-- The world outside the manager: the state of the cache backend and the
calls made so far, oldest first. -/
structure World (σ : Type) where
  store : σ
  trace : List Event

/-- The `tokenManager` struct: a client that may be nil, and a cache. -/
structure tokenManager (Client σ : Type) where
  client : Option Client
  cache : Cacher σ

/-! ## The three methods -/

section Methods

variable {Client Ctx σ : Type}

/-- The method `tokenManager.add`: encode (the error is dropped) and put under
the address string of the token. -/
def tokenManager.add (env : Env Client Ctx) (tc : tokenManager Client σ)
    (token : Token) (w : World σ) : World σ :=
  let encoded := (env.Encode token).1
  let key := env.addressString token.Address
  { store := tc.cache.Put w.store key encoded
    trace := w.trace ++ [Event.cachePut key encoded] }

/-- The method `tokenManager.get`: the cached token, when present and decodable. -/
def tokenManager.get (env : Env Client Ctx) (tc : tokenManager Client σ)
    (address : Address) (w : World σ) : (Token × Bool) × World σ :=
  let key := env.addressString address
  let r := tc.cache.Get w.store key
  let w1 : World σ := { store := r.2, trace := w.trace ++ [Event.cacheGet key] }
  if r.1.2 then
    match env.Decode r.1.1 with
    | .error _ => ((Token.zero, false), w1)
    | .ok t => ((t, true), w1)
  else
    ((Token.zero, false), w1)

/-- Append one event to the trace of a world. -/
def World.log (w : World σ) (e : Event) : World σ :=
  { w with trace := w.trace ++ [e] }

/-- The method `tokenManager.GetToken`: the returned pair `(Token, error)` and
the world afterwards. -/
def tokenManager.GetToken (env : Env Client Ctx) (tc : tokenManager Client σ)
    (ctx : Ctx) (address : Address) (w : World σ) :
    (Token × Option Error) × World σ :=
  let g := tc.get env address w
  if g.1.2 then
    ((g.1.1, none), g.2)
  else
    match tc.client with
    | none => ((Token.zero, some ErrNotConnected), g.2)
    | some client =>
      let w1 := g.2.log (Event.newCaller address)
      match env.NewErc20Caller address client with
      | .error err => ((Token.zero, some (Errorf "getting token: " err)), w1)
      | .ok token =>
        let opts : CallOpts Ctx := { Context := ctx }
        let w2 := w1.log (Event.symbol address)
        match token.Symbol opts with
        | .error err =>
          ((Token.zero, some (Errorf "getting token: reading name: " err)), w2)
        | .ok sym =>
          let w3 := w2.log (Event.decimals address)
          match token.Decimals opts with
          | .error err =>
            ((Token.zero, some (Errorf "getting token: reading decimals: " err)), w3)
          | .ok decimals =>
            let newToken : Token :=
              { Address := address, Symbol := sym, Decimals := Int.ofNat decimals.val }
            ((newToken, none), tc.add env newToken w3)

end Methods

/-! ## Stand-ins for the collaborators, used to run the methods on concrete inputs -/

/-- An in-memory cache backend: an association list, newest entry first. -/
def listCacher : Cacher (List (String × Bytes)) where
  Get st key :=
    match st.lookup key with
    | some value => ((value, true), st)
    | none => (([], false), st)
  Put st key value := (key, value) :: st

/-- The twenty bytes of an address, most significant first. -/
def addressBytes (a : Address) : Bytes :=
  (List.range 20).map fun i => Fin.ofNat (a.val / 256 ^ (19 - i))

/-- The address read back from bytes, most significant first. -/
def addressOfBytes (b : Bytes) : Address :=
  Fin.ofNat (b.foldl (fun acc x => acc * 256 + x.val) 0)

/-- A byte layout for examples: the address, one byte of decimals, then one
byte for each character of the symbol. -/
def sampleEncode (t : Token) : Bytes :=
  addressBytes t.Address ++ [Fin.ofNat t.Decimals.toNat] ++
    t.Symbol.data.map fun c => Fin.ofNat c.toNat

/-- The reader of `sampleEncode`; fewer than 21 bytes are malformed. -/
def sampleDecode (b : Bytes) : Except Error Token :=
  if b.length < 21 then
    .error (Error.foreign "malformed record")
  else
    .ok { Address := addressOfBytes (b.take 20)
          Symbol := String.mk ((b.drop 21).map fun x => Char.ofNat x.val)
          Decimals := Int.ofNat ((b.drop 20).headD 0).val }

/-- A caller whose two calls answer the same way under every context. -/
def fixedCaller (sym : Except Error String) (dec : Except Error (Fin 256)) :
    Erc20Caller Unit where
  Symbol _ := sym
  Decimals _ := dec

/-- An environment for examples: hexadecimal address strings, the sample byte
layout, and a given outcome of `erc20.NewErc20Caller`. -/
def sampleEnv (caller : Except Error (Erc20Caller Unit)) : Env Unit Unit where
  addressString a := "0x" ++ String.mk (Nat.toDigits 16 a.val)
  Encode t := (sampleEncode t, none)
  Decode := sampleDecode
  NewErc20Caller _ _ := caller

/-- The address `0xAAAA…AA` of the concrete scenario. -/
def addrA : Address := ⟨0xAAAAAAAAAAAAAAAAAAAAAAAAAAAAAAAAAAAAAAAA, by decide⟩

/-- Another address, `0xBBBB…BB`. -/
def addrB : Address := ⟨0xBBBBBBBBBBBBBBBBBBBBBBBBBBBBBBBBBBBBBBBB, by decide⟩

/-- The record of the concrete scenario. -/
def tokenUSDX : Token := { Address := addrA, Symbol := "USDX", Decimals := 6 }

/-- The cache key of `addrA` under `sampleEnv`. -/
def keyA : String := "0xaaaaaaaaaaaaaaaaaaaaaaaaaaaaaaaaaaaaaaaa"

/-- A manager over the in-memory backend with a nil client. -/
def offlineManager : tokenManager Unit (List (String × Bytes)) :=
  { client := none, cache := listCacher }

/-- A manager over the in-memory backend with a client. -/
def onlineManager : tokenManager Unit (List (String × Bytes)) :=
  { client := some (), cache := listCacher }

/-- A world with an empty cache and no call made yet. -/
def emptyWorld : World (List (String × Bytes)) := { store := [], trace := [] }

/-- A world whose cache holds the given token under the key of `addrA`. -/
def worldHolding (t : Token) : World (List (String × Bytes)) :=
  { store := [(keyA, sampleEncode t)], trace := [] }

/-- A world whose cache holds three bytes, which `sampleDecode` rejects, under
the key of `addrA`. -/
def worldCorrupt : World (List (String × Bytes)) :=
  { store := [(keyA, [1, 2, 3])], trace := [] }

/-- A caller that answers `USDX` and 6. -/
def usdxCaller : Erc20Caller Unit := fixedCaller (.ok "USDX") (.ok 6)

/-- An environment in which the caller is built and answers `USDX` and 6. -/
def usdxEnv : Env Unit Unit := sampleEnv (.ok usdxCaller)

/-- A caller whose `Symbol` call fails and whose `Decimals` call would answer 6. -/
def symbolRevertCaller : Erc20Caller Unit :=
  fixedCaller (.error (Error.foreign "execution reverted")) (.ok 6)

/-- A caller whose `Symbol` call answers `USDX` and whose `Decimals` call fails. -/
def decimalsRevertCaller : Erc20Caller Unit :=
  fixedCaller (.ok "USDX") (.error (Error.foreign "execution reverted"))

/-- A token stored for another address: `USDX` with the address `addrB`. -/
def tokenOfB : Token := { Address := addrB, Symbol := "USDX", Decimals := 6 }

/-- The word occurs in the message, as a run of consecutive characters. -/
def mentions (word msg : String) : Prop := word.data <:+: msg.data

instance (word msg : String) : Decidable (mentions word msg) :=
  inferInstanceAs (Decidable (word.data <:+: msg.data))

/-- An environment in which `erc20.NewErc20Caller` fails. -/
def noCallerEnv : Env Unit Unit := sampleEnv (.error (Error.foreign "invalid abi"))

/-- A stand-in for `Token.Encode` that fails and returns no bytes. -/
def failingEncode (_ : Token) : Bytes × Option Error :=
  ([], some (Error.foreign "encode failed"))

/-- A stand-in for a `Put` that the backend rejects: the state is unchanged. -/
def rejectingPut (st : List (String × Bytes)) (_ : String) (_ : Bytes) :
    List (String × Bytes) := st

/-! ## The cache lookup -/

section Lookup

variable {Client Ctx σ : Type}

/-- The world after the one cache read that `get` makes. -/
def afterGet (env : Env Client Ctx) (tc : tokenManager Client σ)
    (a : Address) (w : World σ) : World σ :=
  { store := (tc.cache.Get w.store (env.addressString a)).2
    trace := w.trace ++ [Event.cacheGet (env.addressString a)] }

/-- The lookup `get` always leaves the world `afterGet`. -/
theorem get_world (env : Env Client Ctx) (tc : tokenManager Client σ)
    (a : Address) (w : World σ) :
    (tc.get env a w).2 = afterGet env tc a w := by
  unfold tokenManager.get afterGet
  dsimp only
  split
  · split <;> rfl
  · rfl

/-- A present and decodable entry is a hit with the decoded token. -/
theorem get_hit (env : Env Client Ctx) (tc : tokenManager Client σ)
    (a : Address) (w : World σ) (b : Bytes) (t : Token)
    (hget : (tc.cache.Get w.store (env.addressString a)).1 = (b, true))
    (hdec : env.Decode b = .ok t) :
    (tc.get env a w).1 = (t, true) := by
  unfold tokenManager.get
  simp [hget, hdec]

/-- An absent entry is a miss with the zero token. -/
theorem get_absent (env : Env Client Ctx) (tc : tokenManager Client σ)
    (a : Address) (w : World σ)
    (hget : (tc.cache.Get w.store (env.addressString a)).1.2 = false) :
    (tc.get env a w).1 = (Token.zero, false) := by
  unfold tokenManager.get
  simp [hget]

/-- An entry that `Decode` rejects is a miss with the zero token. -/
theorem get_undecodable (env : Env Client Ctx) (tc : tokenManager Client σ)
    (a : Address) (w : World σ) (e : Error)
    (hdec : env.Decode (tc.cache.Get w.store (env.addressString a)).1.1 = .error e) :
    (tc.get env a w).1 = (Token.zero, false) := by
  unfold tokenManager.get
  dsimp only
  split
  · rw [hdec]
  · rfl

/-- On a hit `GetToken` returns the cached token and does nothing more. -/
theorem GetToken_of_hit (env : Env Client Ctx) (tc : tokenManager Client σ)
    (ctx : Ctx) (a : Address) (w : World σ) (t : Token)
    (h : (tc.get env a w).1 = (t, true)) :
    tc.GetToken env ctx a w = ((t, none), afterGet env tc a w) := by
  unfold tokenManager.GetToken
  simp [h, get_world]

/-- On a miss without a client `GetToken` stops with `ErrNotConnected`. -/
theorem GetToken_of_miss_nil (env : Env Client Ctx) (tc : tokenManager Client σ)
    (ctx : Ctx) (a : Address) (w : World σ)
    (h : (tc.get env a w).1.2 = false) (hcl : tc.client = none) :
    tc.GetToken env ctx a w =
      ((Token.zero, some ErrNotConnected), afterGet env tc a w) := by
  unfold tokenManager.GetToken
  simp [h, hcl, get_world]

/-- On a miss with a client, what `GetToken` does depends on the cache only
through the world the lookup leaves. -/
theorem GetToken_of_miss_some (env : Env Client Ctx) (tc : tokenManager Client σ)
    (ctx : Ctx) (a : Address) (w : World σ) (client : Client)
    (h : (tc.get env a w).1.2 = false) (hcl : tc.client = some client) :
    tc.GetToken env ctx a w =
      match env.NewErc20Caller a client with
      | .error err =>
        ((Token.zero, some (Errorf "getting token: " err)),
          (afterGet env tc a w).log (Event.newCaller a))
      | .ok token =>
        match token.Symbol { Context := ctx } with
        | .error err =>
          ((Token.zero, some (Errorf "getting token: reading name: " err)),
            ((afterGet env tc a w).log (Event.newCaller a)).log (Event.symbol a))
        | .ok sym =>
          match token.Decimals { Context := ctx } with
          | .error err =>
            ((Token.zero, some (Errorf "getting token: reading decimals: " err)),
              (((afterGet env tc a w).log (Event.newCaller a)).log
                (Event.symbol a)).log (Event.decimals a))
          | .ok decimals =>
            (({ Address := a, Symbol := sym, Decimals := Int.ofNat decimals.val }, none),
              tc.add env { Address := a, Symbol := sym, Decimals := Int.ofNat decimals.val }
                ((((afterGet env tc a w).log (Event.newCaller a)).log
                  (Event.symbol a)).log (Event.decimals a))) := by
  unfold tokenManager.GetToken
  simp [h, hcl, get_world]

/-- A lookup that succeeds found a present entry that decodes to its answer. -/
theorem get_hit_inv (env : Env Client Ctx) (tc : tokenManager Client σ)
    (a : Address) (w : World σ) (h : (tc.get env a w).1.2 = true) :
    (tc.cache.Get w.store (env.addressString a)).1.2 = true ∧
    env.Decode (tc.cache.Get w.store (env.addressString a)).1.1 =
      .ok (tc.get env a w).1.1 := by
  unfold tokenManager.get at h ⊢
  dsimp only at h ⊢
  by_cases hok : (tc.cache.Get w.store (env.addressString a)).1.2 = true
  · rcases hd : env.Decode (tc.cache.Get w.store (env.addressString a)).1.1 with e | t
    · simp [hok, hd] at h
    · simp [hok, hd]
  · simp [hok] at h

/-- A message that starts with a lead mentions every word of the lead. -/
theorem mentions_append (word lead rest : String) (h : mentions word lead) :
    mentions word (lead ++ rest) := by
  unfold mentions at h ⊢
  rw [String.data_append]
  exact h.trans (List.prefix_append lead.data rest.data).isInfix

end Lookup

/-! ## The resolve protocol -/

section Resolve

variable {Client Ctx σ : Type}

/-- C1 (cache hit). For every address, context and client (nil included): when
the cache holds bytes `b` under the address string and `Decode b` succeeds with
`t`, `GetToken` returns `(t, nil)`; the only call it makes on a collaborator is
that one cache read, so neither `Symbol` nor `Decimals` is invoked, and the
backend state is the one the read left, so no `Put` happened. -/
theorem GetToken_cache_hit (env : Env Client Ctx) (tc : tokenManager Client σ)
    (ctx : Ctx) (a : Address) (w : World σ) (b : Bytes) (t : Token)
    (hget : (tc.cache.Get w.store (env.addressString a)).1 = (b, true))
    (hdec : env.Decode b = .ok t) :
    (tc.GetToken env ctx a w).1 = (t, none) ∧
    (tc.GetToken env ctx a w).2.trace =
      w.trace ++ [Event.cacheGet (env.addressString a)] ∧
    (tc.GetToken env ctx a w).2.store =
      (tc.cache.Get w.store (env.addressString a)).2 := by
  rw [GetToken_of_hit env tc ctx a w t (get_hit env tc a w b t hget hdec)]
  exact ⟨rfl, rfl, rfl⟩

/-- C2 (miss, successful fetch). With no entry under the address string, a
non-nil client, and a caller whose `Symbol` answers `s` and whose `Decimals`
answers the 8-bit `d`, `GetToken` returns `Token{a, s, d}` with a nil error and
`0 ≤ Decimals ≤ 255`; after the cache read it makes exactly one `Symbol` call,
one `Decimals` call and one `Put`, the `Put` under the address string with the
bytes `Encode` gives for the returned token. -/
theorem GetToken_miss_fetch (env : Env Client Ctx) (tc : tokenManager Client σ)
    (ctx : Ctx) (a : Address) (w : World σ) (client : Client)
    (caller : Erc20Caller Ctx) (s : String) (d : Fin 256)
    (hget : (tc.cache.Get w.store (env.addressString a)).1.2 = false)
    (hcl : tc.client = some client)
    (hnew : env.NewErc20Caller a client = .ok caller)
    (hsym : caller.Symbol { Context := ctx } = .ok s)
    (hdec : caller.Decimals { Context := ctx } = .ok d) :
    (tc.GetToken env ctx a w).1 =
      ({ Address := a, Symbol := s, Decimals := Int.ofNat d.val }, none) ∧
    0 ≤ (tc.GetToken env ctx a w).1.1.Decimals ∧
    (tc.GetToken env ctx a w).1.1.Decimals ≤ 255 ∧
    (tc.GetToken env ctx a w).2.trace =
      w.trace ++ [Event.cacheGet (env.addressString a), Event.newCaller a,
        Event.symbol a, Event.decimals a,
        Event.cachePut (env.addressString a)
          (env.Encode { Address := a, Symbol := s, Decimals := Int.ofNat d.val }).1] ∧
    (tc.GetToken env ctx a w).2.store =
      tc.cache.Put (tc.cache.Get w.store (env.addressString a)).2 (env.addressString a)
        (env.Encode { Address := a, Symbol := s, Decimals := Int.ofNat d.val }).1 := by
  have hm : (tc.get env a w).1.2 = false := by rw [get_absent env tc a w hget]
  have key := GetToken_of_miss_some env tc ctx a w client hm hcl
  simp only [hnew, hsym, hdec] at key
  rw [key]
  refine ⟨rfl, ?_, ?_, ?_, rfl⟩
  · exact Int.ofNat_nonneg _
  · have := d.isLt
    show Int.ofNat d.val ≤ 255
    simp only [Int.ofNat_eq_coe]
    omega
  · simp [tokenManager.add, World.log, afterGet]

/-- C3 (decode-failure fallback). A run against a cache that holds bytes `b`
rejected by `Decode` under the address string, and a run against a cache with
no entry there, for the same client, environment and context, return the same
token and the same error and make the same calls on the collaborators (the
same remote calls, the same `Put`s); the result is the one of the run without
an entry, in which the error of `Decode` plays no part. -/
theorem GetToken_undecodable_as_absent {σ₁ σ₂ : Type} (env : Env Client Ctx)
    (tc₁ : tokenManager Client σ₁) (tc₂ : tokenManager Client σ₂)
    (ctx : Ctx) (a : Address) (w₁ : World σ₁) (w₂ : World σ₂) (b : Bytes) (e : Error)
    (hclient : tc₁.client = tc₂.client) (htrace : w₁.trace = w₂.trace)
    (hget₁ : (tc₁.cache.Get w₁.store (env.addressString a)).1 = (b, true))
    (hdec : env.Decode b = .error e)
    (hget₂ : (tc₂.cache.Get w₂.store (env.addressString a)).1.2 = false) :
    (tc₁.GetToken env ctx a w₁).1 = (tc₂.GetToken env ctx a w₂).1 ∧
    (tc₁.GetToken env ctx a w₁).2.trace = (tc₂.GetToken env ctx a w₂).2.trace := by
  have hm₁ : (tc₁.get env a w₁).1.2 = false := by
    rw [get_undecodable env tc₁ a w₁ e (by rw [hget₁]; exact hdec)]
  have hm₂ : (tc₂.get env a w₂).1.2 = false := by rw [get_absent env tc₂ a w₂ hget₂]
  cases hc : tc₂.client with
  | none =>
    rw [GetToken_of_miss_nil env tc₁ ctx a w₁ hm₁ (hclient.trans hc),
      GetToken_of_miss_nil env tc₂ ctx a w₂ hm₂ hc]
    simp [afterGet, htrace]
  | some client =>
    rw [GetToken_of_miss_some env tc₁ ctx a w₁ client hm₁ (hclient.trans hc),
      GetToken_of_miss_some env tc₂ ctx a w₂ client hm₂ hc]
    rcases hnew : env.NewErc20Caller a client with err | token
    · simp [hnew, afterGet, World.log, htrace]
    · rcases hsym : token.Symbol { Context := ctx } with err | sym
      · simp [hnew, hsym, afterGet, World.log, htrace]
      · rcases hd : token.Decimals { Context := ctx } with err | dec
        · simp [hnew, hsym, hd, afterGet, World.log, htrace]
        · simp [hnew, hsym, hd, afterGet, World.log, tokenManager.add, htrace]

/-- C4 (not connected). With a nil client and a lookup that misses (no entry,
or an entry `Decode` rejects), `GetToken` returns the zero token with exactly
`ErrNotConnected`; the only call made is the cache read, so there is no remote
call, and the backend state is the one the read left, so there is no `Put`. -/
theorem GetToken_not_connected (env : Env Client Ctx) (tc : tokenManager Client σ)
    (ctx : Ctx) (a : Address) (w : World σ)
    (hcl : tc.client = none)
    (hmiss : (tc.cache.Get w.store (env.addressString a)).1.2 = false ∨
      ∃ e, env.Decode (tc.cache.Get w.store (env.addressString a)).1.1 = .error e) :
    (tc.GetToken env ctx a w).1 = (Token.zero, some ErrNotConnected) ∧
    (tc.GetToken env ctx a w).2.trace =
      w.trace ++ [Event.cacheGet (env.addressString a)] ∧
    (tc.GetToken env ctx a w).2.store =
      (tc.cache.Get w.store (env.addressString a)).2 := by
  have hm : (tc.get env a w).1.2 = false := by
    rcases hmiss with h | ⟨e, h⟩
    · rw [get_absent env tc a w h]
    · rw [get_undecodable env tc a w e h]
  rw [GetToken_of_miss_nil env tc ctx a w hm hcl]
  exact ⟨rfl, rfl, rfl⟩

/-- C5 (symbol failure, evaluated). On an empty cache with a client, when the
`Symbol` call fails with `execution reverted`, `GetToken` returns the zero token
and an error that unwraps to that cause, and makes no `Put`; the message is
`getting token: reading name: execution reverted`, which mentions `name` and
does not mention `symbol`. -/
theorem GetToken_symbol_failure_names_name :
    (onlineManager.GetToken (sampleEnv (.ok symbolRevertCaller)) () addrA emptyWorld).1 =
      (Token.zero, some (Error.wrap "getting token: reading name: execution reverted"
        (Error.foreign "execution reverted"))) ∧
    (Error.wrap "getting token: reading name: execution reverted"
        (Error.foreign "execution reverted")).Unwrap =
      some (Error.foreign "execution reverted") ∧
    mentions "name" "getting token: reading name: execution reverted" ∧
    ¬ mentions "symbol" "getting token: reading name: execution reverted" ∧
    (onlineManager.GetToken (sampleEnv (.ok symbolRevertCaller)) () addrA emptyWorld).2.trace =
      [Event.cacheGet keyA, Event.newCaller addrA, Event.symbol addrA] ∧
    (onlineManager.GetToken (sampleEnv (.ok symbolRevertCaller)) () addrA emptyWorld).2.store =
      [] := by
  refine ⟨by rfl, by rfl, by decide, by decide, by rfl, by rfl⟩

/-- C6 (decimals failure). On a miss (no entry, or an entry `Decode` rejects)
with a non-nil client, when `Symbol` succeeds and `Decimals` then fails with
`e`, `GetToken` returns the zero token and a non-nil error that unwraps to `e`,
whose message is `getting token: reading decimals: ` followed by the message of
`e` and so mentions `decimals`; the calls made are the cache read, the caller
construction, `Symbol` and `Decimals`, and the backend state is the one the
read left: no `Put`, the fetched symbol is not stored. -/
theorem GetToken_decimals_failure (env : Env Client Ctx) (tc : tokenManager Client σ)
    (ctx : Ctx) (a : Address) (w : World σ) (client : Client)
    (caller : Erc20Caller Ctx) (s : String) (e : Error)
    (hmiss : (tc.cache.Get w.store (env.addressString a)).1.2 = false ∨
      ∃ e₀, env.Decode (tc.cache.Get w.store (env.addressString a)).1.1 = .error e₀)
    (hcl : tc.client = some client)
    (hnew : env.NewErc20Caller a client = .ok caller)
    (hsym : caller.Symbol { Context := ctx } = .ok s)
    (hdec : caller.Decimals { Context := ctx } = .error e) :
    (tc.GetToken env ctx a w).1.1 = Token.zero ∧
    (∃ err, (tc.GetToken env ctx a w).1.2 = some err ∧ err.Unwrap = some e ∧
      err.message = "getting token: reading decimals: " ++ e.message ∧
      mentions "decimals" err.message) ∧
    (tc.GetToken env ctx a w).2.trace =
      w.trace ++ [Event.cacheGet (env.addressString a), Event.newCaller a,
        Event.symbol a, Event.decimals a] ∧
    (tc.GetToken env ctx a w).2.store =
      (tc.cache.Get w.store (env.addressString a)).2 := by
  have hm : (tc.get env a w).1.2 = false := by
    rcases hmiss with h | ⟨e₀, h⟩
    · rw [get_absent env tc a w h]
    · rw [get_undecodable env tc a w e₀ h]
  have key := GetToken_of_miss_some env tc ctx a w client hm hcl
  simp only [hnew, hsym, hdec] at key
  rw [key]
  refine ⟨rfl, ⟨_, rfl, rfl, rfl, ?_⟩, ?_, rfl⟩
  · exact mentions_append _ _ _ (by decide)
  · simp [World.log, afterGet]

/-- C7 as amended (error taxonomy). Whenever `GetToken` returns a non-nil
error, that error is `ErrNotConnected` (and the client is nil), or it is the
error of `erc20.NewErc20Caller` wrapped under `getting token: `, or it wraps
the error of the failing `Symbol` call, or it is the error of the failing
`Decimals` call wrapped under `getting token: reading decimals: `. No error of
`Decode`, `Encode` or the cache backend is among them. -/
theorem GetToken_error_taxonomy (env : Env Client Ctx) (tc : tokenManager Client σ)
    (ctx : Ctx) (a : Address) (w : World σ) (err : Error)
    (h : (tc.GetToken env ctx a w).1.2 = some err) :
    (err = ErrNotConnected ∧ tc.client = none) ∨
    (∃ client e, tc.client = some client ∧
      env.NewErc20Caller a client = .error e ∧
      err = Errorf "getting token: " e) ∨
    (∃ client caller e, tc.client = some client ∧
      env.NewErc20Caller a client = .ok caller ∧
      caller.Symbol { Context := ctx } = .error e ∧ err.Unwrap = some e) ∨
    (∃ client caller e, tc.client = some client ∧
      env.NewErc20Caller a client = .ok caller ∧
      caller.Decimals { Context := ctx } = .error e ∧
      err = Errorf "getting token: reading decimals: " e) := by
  by_cases hg : (tc.get env a w).1.2 = true
  · have hhit : (tc.get env a w).1 = ((tc.get env a w).1.1, true) := by
      rw [← hg]
    rw [GetToken_of_hit env tc ctx a w _ hhit] at h
    simp at h
  · have hm : (tc.get env a w).1.2 = false := by simpa using hg
    rcases hc : tc.client with _ | client
    · rw [GetToken_of_miss_nil env tc ctx a w hm hc] at h
      left
      simp at h
      exact ⟨h.symm, rfl⟩
    · right
      rw [GetToken_of_miss_some env tc ctx a w client hm hc] at h
      rcases hnew : env.NewErc20Caller a client with e | caller
      · left
        simp [hnew] at h
        exact ⟨client, e, rfl, hnew, h.symm⟩
      · right
        rcases hsym : caller.Symbol { Context := ctx } with e | sym
        · left
          simp [hnew, hsym] at h
          exact ⟨client, caller, e, rfl, hnew, hsym, by rw [← h]; rfl⟩
        · right
          rcases hdec : caller.Decimals { Context := ctx } with e | dec
          · simp [hnew, hsym, hdec] at h
            exact ⟨client, caller, e, rfl, hnew, hdec, h.symm⟩
          · simp [hnew, hsym, hdec] at h

/-- C8 (best-effort cache write). On a miss with a non-nil client whose
`Symbol` and `Decimals` calls answer `s` and `d`, `GetToken` returns
`Token{a, s, d}` with a nil error whatever `Encode` returns (bytes and error)
and whatever the backend does on `Put`: both are replaced by arbitrary
functions here and the returned pair does not change. -/
theorem GetToken_write_best_effort (env : Env Client Ctx) (tc : tokenManager Client σ)
    (ctx : Ctx) (a : Address) (w : World σ) (client : Client)
    (caller : Erc20Caller Ctx) (s : String) (d : Fin 256)
    (encode : Token → Bytes × Option Error) (put : σ → String → Bytes → σ)
    (hmiss : (tc.cache.Get w.store (env.addressString a)).1.2 = false ∨
      ∃ e₀, env.Decode (tc.cache.Get w.store (env.addressString a)).1.1 = .error e₀)
    (hcl : tc.client = some client)
    (hnew : env.NewErc20Caller a client = .ok caller)
    (hsym : caller.Symbol { Context := ctx } = .ok s)
    (hdec : caller.Decimals { Context := ctx } = .ok d) :
    (tokenManager.GetToken { env with Encode := encode }
      { tc with cache := { tc.cache with Put := put } } ctx a w).1 =
      ({ Address := a, Symbol := s, Decimals := Int.ofNat d.val }, none) := by
  have hm : (tokenManager.get { env with Encode := encode }
      { tc with cache := { tc.cache with Put := put } } a w).1.2 = false := by
    rcases hmiss with h | ⟨e₀, h⟩
    · exact congrArg Prod.snd (get_absent { env with Encode := encode }
        { tc with cache := { tc.cache with Put := put } } a w h)
    · exact congrArg Prod.snd (get_undecodable { env with Encode := encode }
        { tc with cache := { tc.cache with Put := put } } a w e₀ h)
  have key := GetToken_of_miss_some { env with Encode := encode }
    { tc with cache := { tc.cache with Put := put } } ctx a w client hm hcl
  simp only [hnew, hsym, hdec] at key
  rw [key]

/-- C7 as stated fails: with a client and an empty cache, when
`erc20.NewErc20Caller` fails with `invalid abi`, `GetToken` returns the error
`getting token: invalid abi`; it is not `ErrNotConnected`, and no `Symbol` or
`Decimals` call was made, so it does not come from a failing remote call. -/
theorem GetToken_caller_construction_error :
    (onlineManager.GetToken noCallerEnv () addrA emptyWorld).1 =
      (Token.zero, some (Error.wrap "getting token: invalid abi"
        (Error.foreign "invalid abi"))) ∧
    Error.wrap "getting token: invalid abi" (Error.foreign "invalid abi") ≠
      ErrNotConnected ∧
    (onlineManager.GetToken noCallerEnv () addrA emptyWorld).2.trace =
      [Event.cacheGet keyA, Event.newCaller addrA] := by
  refine ⟨by rfl, by decide, by rfl⟩

/-- C9 as stated fails: when the cache holds, under the key of `0xAAAA…`, the
encoding of a token whose address is `0xBBBB…`, `GetToken` for `0xAAAA…`
succeeds and returns that token: its address is not the one asked for and its
address string is not the key that was queried. -/
theorem GetToken_hit_keeps_stored_address :
    (offlineManager.GetToken usdxEnv () addrA (worldHolding tokenOfB)).1 =
      (tokenOfB, none) ∧
    tokenOfB.Address ≠ addrA ∧
    usdxEnv.addressString tokenOfB.Address ≠ usdxEnv.addressString addrA ∧
    (offlineManager.GetToken usdxEnv () addrA (worldHolding tokenOfB)).2.trace =
      [Event.cacheGet (usdxEnv.addressString addrA)] := by
  refine ⟨by rfl, by decide, by decide, by rfl⟩

/-- C9 as amended (address and key). Whenever `GetToken` succeeds, and the entry
under the address string, if there is one that decodes, decodes to a token
with the address asked for, the returned token has that address: its address
string is the key of the one cache read, and every `Put` made by the call is
under that key. On the remote-fetch path the condition on the entry is void. -/
theorem GetToken_address_is_key (env : Env Client Ctx) (tc : tokenManager Client σ)
    (ctx : Ctx) (a : Address) (w : World σ) (t : Token)
    (hstored : ∀ t₀, (tc.cache.Get w.store (env.addressString a)).1.2 = true →
      env.Decode (tc.cache.Get w.store (env.addressString a)).1.1 = .ok t₀ →
      t₀.Address = a)
    (hok : (tc.GetToken env ctx a w).1 = (t, none)) :
    t.Address = a ∧
    ∃ evs, (tc.GetToken env ctx a w).2.trace =
        w.trace ++ [Event.cacheGet (env.addressString t.Address)] ++ evs ∧
      ∀ k v, Event.cachePut k v ∈ evs → k = env.addressString t.Address := by
  by_cases hg : (tc.get env a w).1.2 = true
  · have hhit : (tc.get env a w).1 = ((tc.get env a w).1.1, true) := by
      rw [← hg]
    have hinv := get_hit_inv env tc a w hg
    rw [GetToken_of_hit env tc ctx a w _ hhit] at hok ⊢
    have ht : (tc.get env a w).1.1 = t := by simpa using hok
    have hta : t.Address = a := by
      rw [← ht]
      exact hstored _ hinv.1 hinv.2
    refine ⟨hta, [], ?_, ?_⟩
    · simp [afterGet, hta]
    · intro k v hmem
      simp at hmem
  · have hm : (tc.get env a w).1.2 = false := by simpa using hg
    rcases hc : tc.client with _ | client
    · rw [GetToken_of_miss_nil env tc ctx a w hm hc] at hok
      simp at hok
    · rw [GetToken_of_miss_some env tc ctx a w client hm hc] at hok ⊢
      rcases hnew : env.NewErc20Caller a client with e | caller
      · simp [hnew] at hok
      · rcases hsym : caller.Symbol { Context := ctx } with e | sym
        · simp [hnew, hsym] at hok
        · rcases hdec : caller.Decimals { Context := ctx } with e | dec
          · simp [hnew, hsym, hdec] at hok
          · simp only [hnew, hsym, hdec] at hok ⊢
            have ht : ({ Address := a, Symbol := sym, Decimals := Int.ofNat dec.val } : Token)
                = t := by simpa using hok
            have hta : t.Address = a := by rw [← ht]
            refine ⟨hta, [Event.newCaller a, Event.symbol a, Event.decimals a,
              Event.cachePut (env.addressString a)
                (env.Encode { Address := a, Symbol := sym, Decimals := Int.ofNat dec.val }).1],
              ?_, ?_⟩
            · simp [tokenManager.add, World.log, afterGet, hta]
            · intro k v hmem
              simp at hmem
              rw [hta]
              exact hmem.1

/-- C10 (resolve populates the cache). Over a backend in which a `Put` followed
by a `Get` of the same key returns the bytes put, and with `Decode` reading
back what `Encode` gives for the fetched token: for an address with no entry,
a client, and remote answers `s` and `d`, the first `GetToken` returns
`r = Token{a, s, d}`; afterwards the cache holds under the address string bytes
that decode to `r`; and a second `GetToken` (under any context) returns
`(r, nil)` making only a cache read, so no remote call and no further `Put`. -/
theorem GetToken_populates_cache (env : Env Client Ctx) (tc : tokenManager Client σ)
    (ctx ctx₂ : Ctx) (a : Address) (w : World σ) (client : Client)
    (caller : Erc20Caller Ctx) (s : String) (d : Fin 256)
    (hget : (tc.cache.Get w.store (env.addressString a)).1.2 = false)
    (hcl : tc.client = some client)
    (hnew : env.NewErc20Caller a client = .ok caller)
    (hsym : caller.Symbol { Context := ctx } = .ok s)
    (hdec : caller.Decimals { Context := ctx } = .ok d)
    (hcache : ∀ st k v, (tc.cache.Get (tc.cache.Put st k v) k).1 = (v, true))
    (hcodec : env.Decode (env.Encode
        { Address := a, Symbol := s, Decimals := Int.ofNat d.val }).1 =
      .ok { Address := a, Symbol := s, Decimals := Int.ofNat d.val }) :
    (tc.GetToken env ctx a w).1 =
      ({ Address := a, Symbol := s, Decimals := Int.ofNat d.val }, none) ∧
    (tc.cache.Get (tc.GetToken env ctx a w).2.store (env.addressString a)).1.2 = true ∧
    env.Decode (tc.cache.Get (tc.GetToken env ctx a w).2.store (env.addressString a)).1.1 =
      .ok { Address := a, Symbol := s, Decimals := Int.ofNat d.val } ∧
    (tc.GetToken env ctx₂ a (tc.GetToken env ctx a w).2).1 =
      ({ Address := a, Symbol := s, Decimals := Int.ofNat d.val }, none) ∧
    (tc.GetToken env ctx₂ a (tc.GetToken env ctx a w).2).2.trace =
      (tc.GetToken env ctx a w).2.trace ++ [Event.cacheGet (env.addressString a)] ∧
    (tc.GetToken env ctx₂ a (tc.GetToken env ctx a w).2).2.store =
      (tc.cache.Get (tc.GetToken env ctx a w).2.store (env.addressString a)).2 := by
  have hm : (tc.get env a w).1.2 = false := by rw [get_absent env tc a w hget]
  have key := GetToken_of_miss_some env tc ctx a w client hm hcl
  simp only [hnew, hsym, hdec] at key
  have hstore : (tc.GetToken env ctx a w).2.store =
      tc.cache.Put (tc.cache.Get w.store (env.addressString a)).2 (env.addressString a)
        (env.Encode { Address := a, Symbol := s, Decimals := Int.ofNat d.val }).1 := by
    rw [key]
    rfl
  have hread : (tc.cache.Get (tc.GetToken env ctx a w).2.store (env.addressString a)).1 =
      ((env.Encode { Address := a, Symbol := s, Decimals := Int.ofNat d.val }).1, true) := by
    rw [hstore]
    exact hcache _ _ _
  have hhit := get_hit env tc a (tc.GetToken env ctx a w).2 _ _ hread hcodec
  have second := GetToken_of_hit env tc ctx₂ a (tc.GetToken env ctx a w).2 _ hhit
  refine ⟨by rw [key], by rw [hread], by rw [hread]; exact hcodec, by rw [second],
    by rw [second]; rfl, by rw [second]; rfl⟩

end Resolve

/-! ## The theorems at concrete inputs -/

/-- The in-memory backend returns from a `Get` what the last `Put` stored under
that key. -/
theorem listCacher_get_put (st : List (String × Bytes)) (k : String) (v : Bytes) :
    (listCacher.Get (listCacher.Put st k v) k).1 = (v, true) := by
  simp [listCacher, List.lookup]

/-- C1 at a concrete input: nil client, the cache holds the encoding of the
`USDX` record under the key of `0xAAAA…`. -/
theorem GetToken_cache_hit_witness :
    ((offlineManager.cache.Get (worldHolding tokenUSDX).store
        (usdxEnv.addressString addrA)).1 = (sampleEncode tokenUSDX, true) ∧
      usdxEnv.Decode (sampleEncode tokenUSDX) = .ok tokenUSDX) ∧
    ((offlineManager.GetToken usdxEnv () addrA (worldHolding tokenUSDX)).1 =
        (tokenUSDX, none) ∧
      (offlineManager.GetToken usdxEnv () addrA (worldHolding tokenUSDX)).2.trace =
        [Event.cacheGet keyA] ∧
      (offlineManager.GetToken usdxEnv () addrA (worldHolding tokenUSDX)).2.store =
        [(keyA, sampleEncode tokenUSDX)]) :=
  ⟨⟨by rfl, by rfl⟩,
    GetToken_cache_hit usdxEnv offlineManager () addrA (worldHolding tokenUSDX)
      (sampleEncode tokenUSDX) tokenUSDX (by rfl) (by rfl)⟩

/-- C2 at a concrete input: empty cache, a client, remote answers `USDX` and 6. -/
theorem GetToken_miss_fetch_witness :
    (onlineManager.GetToken usdxEnv () addrA emptyWorld).1 = (tokenUSDX, none) ∧
    0 ≤ (onlineManager.GetToken usdxEnv () addrA emptyWorld).1.1.Decimals ∧
    (onlineManager.GetToken usdxEnv () addrA emptyWorld).1.1.Decimals ≤ 255 ∧
    (onlineManager.GetToken usdxEnv () addrA emptyWorld).2.trace =
      [Event.cacheGet keyA, Event.newCaller addrA, Event.symbol addrA,
        Event.decimals addrA, Event.cachePut keyA (sampleEncode tokenUSDX)] ∧
    (onlineManager.GetToken usdxEnv () addrA emptyWorld).2.store =
      [(keyA, sampleEncode tokenUSDX)] :=
  GetToken_miss_fetch usdxEnv onlineManager () addrA emptyWorld () usdxCaller "USDX" 6
    (by rfl) (by rfl) (by rfl) (by rfl) (by rfl)

/-- C3 at a concrete input: a cache holding three bytes under the key against
an empty cache, with a client that answers `USDX` and 6. -/
theorem GetToken_undecodable_as_absent_witness :
    ((onlineManager.cache.Get worldCorrupt.store (usdxEnv.addressString addrA)).1 =
        ([1, 2, 3], true) ∧
      usdxEnv.Decode [1, 2, 3] = .error (Error.foreign "malformed record") ∧
      (onlineManager.cache.Get emptyWorld.store (usdxEnv.addressString addrA)).1.2 = false) ∧
    ((onlineManager.GetToken usdxEnv () addrA worldCorrupt).1 =
        (onlineManager.GetToken usdxEnv () addrA emptyWorld).1 ∧
      (onlineManager.GetToken usdxEnv () addrA worldCorrupt).2.trace =
        (onlineManager.GetToken usdxEnv () addrA emptyWorld).2.trace) :=
  ⟨⟨by rfl, by rfl, by rfl⟩,
    GetToken_undecodable_as_absent usdxEnv onlineManager onlineManager () addrA
      worldCorrupt emptyWorld [1, 2, 3] (Error.foreign "malformed record")
      (by rfl) (by rfl) (by rfl) (by rfl) (by rfl)⟩

/-- C4 at a concrete input: nil client, the cache holds three bytes that do not
decode under the key. -/
theorem GetToken_not_connected_witness :
    (offlineManager.GetToken usdxEnv () addrA worldCorrupt).1 =
      (Token.zero, some ErrNotConnected) ∧
    (offlineManager.GetToken usdxEnv () addrA worldCorrupt).2.trace =
      [Event.cacheGet keyA] ∧
    (offlineManager.GetToken usdxEnv () addrA worldCorrupt).2.store =
      [(keyA, [1, 2, 3])] :=
  GetToken_not_connected usdxEnv offlineManager () addrA worldCorrupt (by rfl)
    (Or.inr ⟨Error.foreign "malformed record", by rfl⟩)

/-- C6 at a concrete input: empty cache, `Symbol` answers `USDX`, `Decimals`
fails with `execution reverted`. -/
theorem GetToken_decimals_failure_witness :
    (onlineManager.GetToken (sampleEnv (.ok decimalsRevertCaller)) () addrA emptyWorld).1.1 =
      Token.zero ∧
    (∃ err, (onlineManager.GetToken (sampleEnv (.ok decimalsRevertCaller)) ()
          addrA emptyWorld).1.2 = some err ∧
      err.Unwrap = some (Error.foreign "execution reverted") ∧
      err.message = "getting token: reading decimals: " ++ "execution reverted" ∧
      mentions "decimals" err.message) ∧
    (onlineManager.GetToken (sampleEnv (.ok decimalsRevertCaller)) () addrA emptyWorld).2.trace =
      [Event.cacheGet keyA, Event.newCaller addrA, Event.symbol addrA,
        Event.decimals addrA] ∧
    (onlineManager.GetToken (sampleEnv (.ok decimalsRevertCaller)) () addrA emptyWorld).2.store =
      [] :=
  GetToken_decimals_failure (sampleEnv (.ok decimalsRevertCaller)) onlineManager ()
    addrA emptyWorld () decimalsRevertCaller "USDX" (Error.foreign "execution reverted")
    (Or.inl (by rfl)) (by rfl) (by rfl) (by rfl) (by rfl)

/-- C7 as amended, at a concrete input: with a client and an empty cache, when
`erc20.NewErc20Caller` fails the returned error falls in the second class. -/
theorem GetToken_error_taxonomy_witness :
    (onlineManager.GetToken noCallerEnv () addrA emptyWorld).1.2 =
      some (Errorf "getting token: " (Error.foreign "invalid abi")) ∧
    ((Errorf "getting token: " (Error.foreign "invalid abi") = ErrNotConnected ∧
        onlineManager.client = none) ∨
      (∃ client e, onlineManager.client = some client ∧
        noCallerEnv.NewErc20Caller addrA client = .error e ∧
        Errorf "getting token: " (Error.foreign "invalid abi") =
          Errorf "getting token: " e) ∨
      (∃ client caller e, onlineManager.client = some client ∧
        noCallerEnv.NewErc20Caller addrA client = .ok caller ∧
        caller.Symbol { Context := () } = .error e ∧
        (Errorf "getting token: " (Error.foreign "invalid abi")).Unwrap = some e) ∨
      (∃ client caller e, onlineManager.client = some client ∧
        noCallerEnv.NewErc20Caller addrA client = .ok caller ∧
        caller.Decimals { Context := () } = .error e ∧
        Errorf "getting token: " (Error.foreign "invalid abi") =
          Errorf "getting token: reading decimals: " e)) :=
  ⟨by rfl,
    GetToken_error_taxonomy noCallerEnv onlineManager () addrA emptyWorld
      (Errorf "getting token: " (Error.foreign "invalid abi")) (by rfl)⟩

/-- C8 at a concrete input: `Encode` fails and returns no bytes, the backend
rejects the `Put`, and the `USDX` record is returned all the same. -/
theorem GetToken_write_best_effort_witness :
    (tokenManager.GetToken { usdxEnv with Encode := failingEncode }
      { onlineManager with cache := { onlineManager.cache with Put := rejectingPut } }
      () addrA emptyWorld).1 = (tokenUSDX, none) :=
  GetToken_write_best_effort usdxEnv onlineManager () addrA emptyWorld () usdxCaller
    "USDX" 6 failingEncode rejectingPut (Or.inl (by rfl)) (by rfl) (by rfl) (by rfl) (by rfl)

/-- C9 as amended, at a concrete input: the cache holds the `USDX` record of
`0xAAAA…` under its own key. -/
theorem GetToken_address_is_key_witness :
    (offlineManager.GetToken usdxEnv () addrA (worldHolding tokenUSDX)).1 =
      (tokenUSDX, none) ∧
    (tokenUSDX.Address = addrA ∧
      ∃ evs, (offlineManager.GetToken usdxEnv () addrA (worldHolding tokenUSDX)).2.trace =
          (worldHolding tokenUSDX).trace ++
            [Event.cacheGet (usdxEnv.addressString tokenUSDX.Address)] ++ evs ∧
        ∀ k v, Event.cachePut k v ∈ evs → k = usdxEnv.addressString tokenUSDX.Address) :=
  ⟨by rfl,
    GetToken_address_is_key usdxEnv offlineManager () addrA (worldHolding tokenUSDX)
      tokenUSDX
      (fun t₀ _ hd => by
        have h : (Except.ok tokenUSDX : Except Error Token) = .ok t₀ := hd
        cases h
        rfl)
      (by rfl)⟩

/-- C10 at the concrete scenario: `0xAAAA…` not in the cache, remote answers
`USDX` and 6. -/
theorem GetToken_populates_cache_witness :
    (onlineManager.GetToken usdxEnv () addrA emptyWorld).1 = (tokenUSDX, none) ∧
    (onlineManager.cache.Get (onlineManager.GetToken usdxEnv () addrA emptyWorld).2.store
      (usdxEnv.addressString addrA)).1.2 = true ∧
    usdxEnv.Decode (onlineManager.cache.Get
      (onlineManager.GetToken usdxEnv () addrA emptyWorld).2.store
      (usdxEnv.addressString addrA)).1.1 = .ok tokenUSDX ∧
    (onlineManager.GetToken usdxEnv () addrA
      (onlineManager.GetToken usdxEnv () addrA emptyWorld).2).1 = (tokenUSDX, none) ∧
    (onlineManager.GetToken usdxEnv () addrA
      (onlineManager.GetToken usdxEnv () addrA emptyWorld).2).2.trace =
      (onlineManager.GetToken usdxEnv () addrA emptyWorld).2.trace ++
        [Event.cacheGet (usdxEnv.addressString addrA)] ∧
    (onlineManager.GetToken usdxEnv () addrA
      (onlineManager.GetToken usdxEnv () addrA emptyWorld).2).2.store =
      (onlineManager.cache.Get (onlineManager.GetToken usdxEnv () addrA emptyWorld).2.store
        (usdxEnv.addressString addrA)).2 :=
  GetToken_populates_cache usdxEnv onlineManager () () addrA emptyWorld () usdxCaller
    "USDX" 6 (by rfl) (by rfl) (by rfl) (by rfl) (by rfl) listCacher_get_put (by rfl)

end DexFeed
